import Mathlib

/-!
Shallow embedding of src/brave_captcha_gen.py.

Randomness model: every call to Python's random module is given an explicit
draw (a natural number) as a parameter; random.randint(lo, hi) maps the draw
into the inclusive range [lo, hi] (uniform when the draw is uniform), and
raises ValueError when the range is empty, exactly as Python does.

Filesystem model: a job returns, besides its Except outcome, the ordered list
of (path, content) pairs it wrote.  A Boolean oracle says whether the label
write succeeds (an OSError in Python); the image save is modelled as
succeeding.
-/

namespace BraveCaptcha

/-- Python random.randint(lo, hi): inclusive on both ends; raises ValueError
when lo > hi.  The draw r is reduced into the range by a modulus. -/
def randint (lo hi : Int) (r : Nat) : Except String Int :=
  if lo ≤ hi then .ok (lo + (r : Int) % (hi - lo + 1))
  else .error "ValueError: empty range for randrange"

/-- Line 28: max_background_grey = 150. -/
def max_background_grey : Int := 150

/-- Line 33: base_static_value = random.randint(0, max_background_grey),
with draw r.  randint 0 150 never fails, so the value is used directly. -/
def baseStatic (r : Nat) : Int := (r : Int) % (max_background_grey + 1)

/-- Line 35 test: distance <= circle_radius, where
distance = ((x-cx)^2 + (y-cy)^2)^0.5.  For the integer magnitudes involved
the floating-point test agrees with the exact one, so we embed the exact
test: the radius is nonnegative and the squared distance is at most r^2. -/
def inCircle (x y cx cy r : Int) : Bool :=
  decide (0 ≤ r) && decide ((x - cx) ^ 2 + (y - cy) ^ 2 ≤ r ^ 2)

/-- Line 36: min(max(base + shift, 0), 255). -/
def clampPixel (v : Int) : Int := min (max v 0) 255

/-- Lines 35-38: the value of one pixel, given its base static draw. -/
def pixelValue (x y cx cy r shift base : Int) : Int :=
  if inCircle x y cx cy r then clampPixel (base + shift) else base

/-- Lines 26-43, generate_static_image: the pixel grid (row-major, y outer
loop), with noise x y the randint draw used for pixel (x, y).  Each pixel
has its own independent draw. -/
def generate_static_image (width height : Nat)
    (circle_radius circle_center_x circle_center_y shift : Int)
    (noise : Nat → Nat → Nat) : List (List Int) :=
  (List.range height).map fun (y : Nat) =>
    (List.range width).map fun (x : Nat) =>
      pixelValue (x : Int) (y : Int) circle_center_x circle_center_y circle_radius shift
        (baseStatic (noise x y))

/-- Line 57: random_circle_center_x = random.randint(circle_rad, img_width - circle_rad). -/
def draw_center_x (circle_rad img_width : Nat) (r : Nat) : Except String Int :=
  randint circle_rad ((img_width : Int) - circle_rad) r

/-- Line 59: random_brightness_shift = 20 + random.randint(-4, 3); the inner
randint never fails (-4 <= 3), so the shift is 20 + (-4 + r % 8). -/
def draw_brightness_shift (r : Nat) : Int := 20 + (-4 + (r : Int) % 8)

/-- Character for one decimal digit (of n % 10). -/
def digitChar (n : Nat) : Char := Char.ofNat (48 + n % 10)

/-- Decimal digits of n, most significant first, via fuel recursion. -/
def natDigitsAux : Nat → Nat → List Char
  | 0, _ => []
  | fuel + 1, n =>
    if n < 10 then [digitChar n]
    else natDigitsAux fuel (n / 10) ++ [digitChar n]

/-- Decimal digit characters of n (Python str(n) for a nonnegative int). -/
def natDigits (n : Nat) : List Char := natDigitsAux (n + 1) n

/-- Zero-pad a digit list on the left to length k (Python {n:0kd}). -/
def padZeros (k : Nat) (ds : List Char) : List Char :=
  List.replicate (k - ds.length) '0' ++ ds

/-- Line 61: image filename image_{index:05d}.png. -/
def img_filename (i : Nat) : String :=
  "image_" ++ String.mk (padZeros 5 (natDigits i)) ++ ".png"

/-- Line 62: label filename image_{index:05d}.txt. -/
def label_filename (i : Nat) : String :=
  "image_" ++ String.mk (padZeros 5 (natDigits i)) ++ ".txt"

/-- os.path.join for a directory with no trailing separator. -/
def path_join (dir file : String) : String := dir ++ "/" ++ file

/-- Python fixed-point formatting {v:.6f} of a nonnegative value, modelled on
the exact rational: round v * 10^6 to the nearest integer and print it with
six digits after the decimal point. -/
def fmt6Chars (q : ℚ) : List Char :=
  let n : Nat := (round (q * 1000000) : Int).toNat
  natDigits (n / 1000000) ++ '.' :: padZeros 6 (natDigits (n % 1000000))

/-- Lines 78-82: the normalized YOLO bounding box. -/
structure BoundingBox where
  class_id : Nat
  cx : ℚ
  cy : ℚ
  w : ℚ
  h : ℚ
deriving DecidableEq

/-- Lines 78-82: class_id = 0 and the four normalized fields. -/
def encode_bbox (center_x : Int) (center_y : Nat) (circle_rad img_width img_height : Nat) :
    BoundingBox where
  class_id := 0
  cx := (center_x : ℚ) / (img_width : ℚ)
  cy := (center_y : ℚ) / (img_height : ℚ)
  w := (2 * circle_rad : ℚ) / (img_width : ℚ)
  h := (2 * circle_rad : ℚ) / (img_height : ℚ)

/-- Line 85: the single line written to the label file. -/
def labelLineChars (box : BoundingBox) : List Char :=
  natDigits box.class_id ++ ' ' :: fmt6Chars box.cx ++ ' ' :: fmt6Chars box.cy
    ++ ' ' :: fmt6Chars box.w ++ ' ' :: fmt6Chars box.h ++ ['\n']

/-- Explicit draws for the random calls a single job makes. -/
structure Rng where
  centerDraw : Nat
  shiftDraw : Nat
  noise : Nat → Nat → Nat

/-- Content of a file a job writes. -/
inductive FileContent where
  | png (img : List (List Int))
  | text (s : String)
deriving DecidableEq

/-- Lines 45-87, generate_single_sample: draws the geometry, renders and
saves the image (the save happens inside generate_static_image, line 42),
then writes the label file.  label_write_ok models whether the label write
raises an OSError; the returned list is the files written, in write order. -/
def generate_single_sample (sample_index : Nat)
    (img_width img_height circle_rad : Nat) (images_dir labels_dir : String)
    (rng : Rng) (label_write_ok : Bool) :
    Except String Unit × List (String × FileContent) :=
  match draw_center_x circle_rad img_width rng.centerDraw with
  | .error e => (.error e, [])
  | .ok random_circle_center_x =>
    let circle_center_y_coord : Nat := img_height / 2
    let random_brightness_shift := draw_brightness_shift rng.shiftDraw
    let img_filepath := path_join images_dir (img_filename sample_index)
    let label_filepath := path_join labels_dir (label_filename sample_index)
    let img := generate_static_image img_width img_height circle_rad
      random_circle_center_x circle_center_y_coord random_brightness_shift rng.noise
    let box := encode_bbox random_circle_center_x circle_center_y_coord
      circle_rad img_width img_height
    let line := String.mk (labelLineChars box)
    if label_write_ok then
      (.ok (), [(img_filepath, .png img), (label_filepath, .text line)])
    else
      (.error "OSError: label write failed", [(img_filepath, .png img)])

/-- What lines 127-135 print, structurally: a progress line carries the
completion count, the total and the split name (line 131); a failure line
carries only the exception message (line 134). -/
inductive LogEvent where
  | progress (count total : Nat) (split : String)
  | failure (msg : String)
deriving DecidableEq

/-- Line 130: num_samples // 10 or 1. -/
def progress_step (num_samples : Nat) : Nat := max (num_samples / 10) 1

/-- Lines 127-135: the collection loop over as_completed results.  Each
result is the (job index, outcome) pair of a completed future, listed in
completion order; i is the running enumeration counter.  A success at
counter i prints progress when (i+1) is a multiple of the step; a failure
prints only the exception message and the loop continues. -/
def collect_results (split : String) (num_samples : Nat) :
    List (Nat × Except String Unit) → Nat → List LogEvent
  | [], _ => []
  | (_idx, .ok _) :: rest, i =>
    (if (i + 1) % progress_step num_samples = 0
      then [.progress (i + 1) num_samples split] else [])
      ++ collect_results split num_samples rest (i + 1)
  | (_idx, .error e) :: rest, i =>
    .failure e :: collect_results split num_samples rest (i + 1)

/-- A job outcome counted as a success by inspection of the results. -/
def resultOk : Except String Unit → Bool
  | .ok _ => true
  | .error _ => false

/-- Number of successful results in a completion list. -/
def successCount (results : List (Nat × Except String Unit)) : Nat :=
  (results.filter fun p => resultOk p.2).length

/-- Number of failed results in a completion list. -/
def failureCount (results : List (Nat × Except String Unit)) : Nat :=
  (results.filter fun p => !resultOk p.2).length

/-- Is a log event a failure line. -/
def isFailureEvent : LogEvent → Bool
  | .failure _ => true
  | _ => false

/-- Number of failure lines in a log. -/
def countFailureEvents (log : List LogEvent) : Nat :=
  (log.filter isFailureEvent).length

/-- Shape of one {v:.6f} field: some digits, a decimal point, then exactly
six digits. -/
def fixed6Shape (l : List Char) : Prop :=
  ∃ ip fp, l = ip ++ '.' :: fp ∧ ip ≠ [] ∧ (∀ c ∈ ip, c.isDigit = true)
    ∧ fp.length = 6 ∧ (∀ c ∈ fp, c.isDigit = true)

/-- Shape of the full label line: the literal class id 0, four fixed-6
fields separated by single spaces, a terminating newline; exactly one
newline and exactly four spaces occur in the line. -/
def labelLineStructure (l : List Char) : Prop :=
  (∃ a b c d, l = '0' :: ' ' :: (a ++ ' ' :: b ++ ' ' :: c ++ ' ' :: d ++ ['\n'])
    ∧ fixed6Shape a ∧ fixed6Shape b ∧ fixed6Shape c ∧ fixed6Shape d)
  ∧ l.count '\n' = 1 ∧ l.count ' ' = 4
  ∧ ∃ front, l = front ++ ['\n']

/-! Helper lemmas. -/

/-- randint at line 33 always succeeds and yields baseStatic. -/
theorem randint_base (r : Nat) : randint 0 max_background_grey r = .ok (baseStatic r) := by
  simp [randint, baseStatic, max_background_grey]

/-- randint at line 59 always succeeds and yields the band value. -/
theorem randint_shift (r : Nat) :
    randint (-4) 3 r = .ok (draw_brightness_shift r - 20) := by
  simp [randint, draw_brightness_shift]

/-- The base static draw is in [0, 150]. -/
theorem baseStatic_bounds (r : Nat) :
    0 ≤ baseStatic r ∧ baseStatic r ≤ max_background_grey := by
  unfold baseStatic max_background_grey
  have h1 : 0 ≤ (r : Int) % 151 := Int.emod_nonneg _ (by norm_num)
  have h2 : (r : Int) % 151 < 151 := Int.emod_lt_of_pos _ (by norm_num)
  omega

/-- The brightness shift is in [16, 23]. -/
theorem draw_brightness_shift_bounds (r : Nat) :
    16 ≤ draw_brightness_shift r ∧ draw_brightness_shift r ≤ 23 := by
  unfold draw_brightness_shift
  have h1 : 0 ≤ (r : Int) % 8 := Int.emod_nonneg _ (by norm_num)
  have h2 : (r : Int) % 8 < 8 := Int.emod_lt_of_pos _ (by norm_num)
  omega

/-- The clamp always lands in [0, 255]. -/
theorem clampPixel_bounds (v : Int) : 0 ≤ clampPixel v ∧ clampPixel v ≤ 255 :=
  ⟨le_min (le_max_right v 0) (by norm_num), min_le_right _ _⟩

/-- The clamp is the identity on [0, 255]. -/
theorem clampPixel_eq_self {v : Int} (h0 : 0 ≤ v) (h255 : v ≤ 255) :
    clampPixel v = v := by
  unfold clampPixel
  rw [max_eq_left h0, min_eq_left h255]

/-- Every character digitChar produces is a decimal digit. -/
theorem digitChar_isDigit (n : Nat) : (digitChar n).isDigit = true := by
  unfold digitChar
  have h : n % 10 < 10 := Nat.mod_lt _ (by norm_num)
  interval_cases h : n % 10 <;> decide

/-- Every character natDigitsAux produces is a decimal digit. -/
theorem natDigitsAux_all_digit :
    ∀ (fuel n : Nat), ∀ c ∈ natDigitsAux fuel n, c.isDigit = true := by
  intro fuel
  induction fuel with
  | zero => intro n c hc; simp [natDigitsAux] at hc
  | succ fuel ih =>
    intro n c hc
    unfold natDigitsAux at hc
    split at hc
    · simp at hc
      subst hc
      exact digitChar_isDigit n
    · rcases List.mem_append.mp hc with h | h
      · exact ih _ _ h
      · simp at h
        subst h
        exact digitChar_isDigit n

/-- natDigits produces only decimal digits. -/
theorem natDigits_all_digit (n : Nat) : ∀ c ∈ natDigits n, c.isDigit = true :=
  natDigitsAux_all_digit (n + 1) n

/-- natDigits is never empty. -/
theorem natDigits_ne_nil (n : Nat) : natDigits n ≠ [] := by
  unfold natDigits natDigitsAux
  split
  · simp
  · simp

/-- Length bound: a number below 10^k has at most k digits (k ≥ 1). -/
theorem natDigitsAux_length_le :
    ∀ (fuel n k : Nat), 1 ≤ k → n < 10 ^ k → (natDigitsAux fuel n).length ≤ k := by
  intro fuel
  induction fuel with
  | zero => intro n k hk _; simp [natDigitsAux]
  | succ fuel ih =>
    intro n k hk hn
    unfold natDigitsAux
    split
    · simpa using hk
    · rename_i hge
      match k, hk with
      | 1, _ => exact absurd hn (by simpa using hge)
      | (k' + 2), _ =>
        have hdiv : n / 10 < 10 ^ (k' + 1) := by
          rw [Nat.div_lt_iff_lt_mul (by norm_num)]
          calc n < 10 ^ (k' + 2) := hn
            _ = 10 ^ (k' + 1) * 10 := by ring
        have := ih (n / 10) (k' + 1) (by omega) hdiv
        simp only [List.length_append, List.length_cons, List.length_nil]
        omega

/-- A number below 10^6 prints with at most six digits. -/
theorem natDigits_length_le_six {n : Nat} (h : n < 1000000) :
    (natDigits n).length ≤ 6 :=
  natDigitsAux_length_le (n + 1) n 6 (by norm_num) h

/-- Padding to six places yields exactly six characters when it can. -/
theorem padZeros_six_length {ds : List Char} (h : ds.length ≤ 6) :
    (padZeros 6 ds).length = 6 := by
  unfold padZeros
  simp only [List.length_append, List.length_replicate]
  omega

/-- Padding preserves being all digits. -/
theorem padZeros_all_digit {k : Nat} {ds : List Char}
    (h : ∀ c ∈ ds, c.isDigit = true) : ∀ c ∈ padZeros k ds, c.isDigit = true := by
  intro c hc
  rcases List.mem_append.mp hc with h0 | h0
  · rw [List.eq_of_mem_replicate h0]
    decide
  · exact h c h0

/-- A fixed-6 formatted value has the fixed6Shape. -/
theorem fmt6Chars_shape (q : ℚ) : fixed6Shape (fmt6Chars q) := by
  refine ⟨natDigits ((round (q * 1000000) : Int).toNat / 1000000),
    padZeros 6 (natDigits ((round (q * 1000000) : Int).toNat % 1000000)),
    rfl, natDigits_ne_nil _, natDigits_all_digit _, ?_,
    padZeros_all_digit (natDigits_all_digit _)⟩
  exact padZeros_six_length (natDigits_length_le_six (Nat.mod_lt _ (by norm_num)))

/-- A digit character is not a newline. -/
theorem isDigit_ne_newline {c : Char} (h : c.isDigit = true) : c ≠ '\n' := by
  rintro rfl
  exact absurd h (by decide)

/-- A digit character is not a space. -/
theorem isDigit_ne_space {c : Char} (h : c.isDigit = true) : c ≠ ' ' := by
  rintro rfl
  exact absurd h (by decide)

/-- A fixed-6 field contains no newline and no space. -/
theorem fixed6Shape_counts {l : List Char} (h : fixed6Shape l) :
    l.count '\n' = 0 ∧ l.count ' ' = 0 := by
  obtain ⟨ip, fp, rfl, -, hip, -, hfp⟩ := h
  have hnl : '\n' ∉ ip ++ '.' :: fp := by
    intro hm
    rcases List.mem_append.mp hm with h0 | h0
    · exact isDigit_ne_newline (hip _ h0) rfl
    · rcases List.mem_cons.mp h0 with h1 | h1
      · exact absurd h1.symm (by decide)
      · exact isDigit_ne_newline (hfp _ h1) rfl
  have hsp : ' ' ∉ ip ++ '.' :: fp := by
    intro hm
    rcases List.mem_append.mp hm with h0 | h0
    · exact isDigit_ne_space (hip _ h0) rfl
    · rcases List.mem_cons.mp h0 with h1 | h1
      · exact absurd h1.symm (by decide)
      · exact isDigit_ne_space (hfp _ h1) rfl
  exact ⟨List.count_eq_zero.mpr hnl, List.count_eq_zero.mpr hsp⟩

/-- The label line for a class-0 box has the required structure. -/
theorem labelLineChars_structure (box : BoundingBox) (hc : box.class_id = 0) :
    labelLineStructure (labelLineChars box) := by
  have hshape : labelLineChars box
      = '0' :: ' ' :: (fmt6Chars box.cx ++ ' ' :: fmt6Chars box.cy
        ++ ' ' :: fmt6Chars box.w ++ ' ' :: fmt6Chars box.h ++ ['\n']) := by
    unfold labelLineChars
    rw [hc]
    rfl
  refine ⟨⟨fmt6Chars box.cx, fmt6Chars box.cy, fmt6Chars box.w, fmt6Chars box.h,
    hshape, fmt6Chars_shape _, fmt6Chars_shape _, fmt6Chars_shape _, fmt6Chars_shape _⟩,
    ?_, ?_, ?_⟩
  · obtain ⟨h1, -⟩ := fixed6Shape_counts (fmt6Chars_shape box.cx)
    obtain ⟨h2, -⟩ := fixed6Shape_counts (fmt6Chars_shape box.cy)
    obtain ⟨h3, -⟩ := fixed6Shape_counts (fmt6Chars_shape box.w)
    obtain ⟨h4, -⟩ := fixed6Shape_counts (fmt6Chars_shape box.h)
    rw [hshape]
    simp [List.count_cons, List.count_append, h1, h2, h3, h4]
  · obtain ⟨-, h1⟩ := fixed6Shape_counts (fmt6Chars_shape box.cx)
    obtain ⟨-, h2⟩ := fixed6Shape_counts (fmt6Chars_shape box.cy)
    obtain ⟨-, h3⟩ := fixed6Shape_counts (fmt6Chars_shape box.w)
    obtain ⟨-, h4⟩ := fixed6Shape_counts (fmt6Chars_shape box.h)
    rw [hshape]
    simp [List.count_cons, List.count_append, h1, h2, h3, h4]
  · refine ⟨'0' :: ' ' :: (fmt6Chars box.cx ++ ' ' :: fmt6Chars box.cy
      ++ ' ' :: fmt6Chars box.w ++ ' ' :: fmt6Chars box.h), ?_⟩
    rw [hshape]
    simp

/-- When the center draw succeeds, the job succeeds and writes the image
file first, then the label file. -/
theorem generate_single_sample_ok (sample_index img_width img_height circle_rad : Nat)
    (images_dir labels_dir : String) (rng : Rng) (cxI : Int)
    (hok : draw_center_x circle_rad img_width rng.centerDraw = .ok cxI) :
    generate_single_sample sample_index img_width img_height circle_rad
        images_dir labels_dir rng true
      = (.ok (), [(path_join images_dir (img_filename sample_index),
          .png (generate_static_image img_width img_height circle_rad cxI
            ((img_height / 2 : Nat) : Int) (draw_brightness_shift rng.shiftDraw) rng.noise)),
        (path_join labels_dir (label_filename sample_index),
          .text (String.mk (labelLineChars (encode_bbox cxI (img_height / 2)
            circle_rad img_width img_height))))]) := by
  unfold generate_single_sample
  rw [hok]
  rfl

/-- When the center draw succeeds but the label write fails, the job fails
with only the image file written. -/
theorem generate_single_sample_label_fail (sample_index img_width img_height circle_rad : Nat)
    (images_dir labels_dir : String) (rng : Rng) (cxI : Int)
    (hok : draw_center_x circle_rad img_width rng.centerDraw = .ok cxI) :
    generate_single_sample sample_index img_width img_height circle_rad
        images_dir labels_dir rng false
      = (.error "OSError: label write failed",
          [(path_join images_dir (img_filename sample_index),
            .png (generate_static_image img_width img_height circle_rad cxI
              ((img_height / 2 : Nat) : Int) (draw_brightness_shift rng.shiftDraw) rng.noise))]) := by
  unfold generate_single_sample
  rw [hok]
  rfl

/-- The center draw succeeds exactly when the randint range is nonempty,
and then its value is within [circle_rad, img_width - circle_rad]. -/
theorem draw_center_x_ok_bounds {circle_rad img_width r : Nat} {cxI : Int}
    (hok : draw_center_x circle_rad img_width r = .ok cxI) :
    (circle_rad : Int) ≤ cxI ∧ cxI ≤ (img_width : Int) - circle_rad := by
  unfold draw_center_x randint at hok
  split at hok
  · rename_i hle
    have hval : cxI = (circle_rad : Int) + (r : Int) % ((img_width : Int) - circle_rad - circle_rad + 1) := by
      exact (Except.ok.injEq _ _ |>.mp hok).symm
    have hpos : 0 < (img_width : Int) - circle_rad - circle_rad + 1 := by omega
    have h1 : 0 ≤ (r : Int) % ((img_width : Int) - circle_rad - circle_rad + 1) :=
      Int.emod_nonneg _ (by omega)
    have h2 : (r : Int) % ((img_width : Int) - circle_rad - circle_rad + 1)
        < (img_width : Int) - circle_rad - circle_rad + 1 :=
      Int.emod_lt_of_pos _ hpos
    omega
  · exact absurd hok (by simp)

/-- The center draw succeeds whenever 2 * circle_rad ≤ img_width. -/
theorem draw_center_x_ok_of_le {circle_rad img_width : Nat}
    (h : 2 * circle_rad ≤ img_width) (r : Nat) :
    draw_center_x circle_rad img_width r
      = .ok ((circle_rad : Int)
          + (r : Int) % ((img_width : Int) - circle_rad - circle_rad + 1)) := by
  unfold draw_center_x randint
  rw [if_pos (by omega)]

/-- The center draw fails whenever img_width < 2 * circle_rad. -/
theorem draw_center_x_err_of_lt {circle_rad img_width : Nat}
    (h : img_width < 2 * circle_rad) (r : Nat) :
    draw_center_x circle_rad img_width r
      = .error "ValueError: empty range for randrange" := by
  unfold draw_center_x randint
  rw [if_neg (by omega)]

/-- Every pixel of a synthesized image is a pixelValue of its own draw. -/
theorem generate_static_image_mem {width height : Nat}
    {circle_radius circle_center_x circle_center_y shift : Int}
    {noise : Nat → Nat → Nat} {row : List Int} {px : Int}
    (hrow : row ∈ generate_static_image width height circle_radius
      circle_center_x circle_center_y shift noise) (hpx : px ∈ row) :
    ∃ x y : Nat, px = pixelValue (x : Int) (y : Int) circle_center_x circle_center_y
      circle_radius shift (baseStatic (noise x y)) := by
  obtain ⟨y, -, rfl⟩ := List.mem_map.mp hrow
  obtain ⟨x, -, rfl⟩ := List.mem_map.mp hpx
  exact ⟨x, y, rfl⟩

/-- A pixel built from a base draw always lies in [0, 255]. -/
theorem pixelValue_bounds (x y cx cy r shift : Int) (n : Nat) :
    0 ≤ pixelValue x y cx cy r shift (baseStatic n)
      ∧ pixelValue x y cx cy r shift (baseStatic n) ≤ 255 := by
  unfold pixelValue
  split
  · exact clampPixel_bounds _
  · have := baseStatic_bounds n
    unfold max_background_grey at this
    omega

/-- Splitting the collection loop at a failed result: the loop logs the
message and keeps going over the remaining results. -/
theorem collect_results_split (split : String) (num_samples : Nat)
    (l2 : List (Nat × Except String Unit)) (k : Nat) (e : String) :
    ∀ (l1 : List (Nat × Except String Unit)) (i : Nat),
    (∀ p ∈ l1, p.2 = .ok ()) →
    collect_results split num_samples (l1 ++ (k, .error e) :: l2) i
      = collect_results split num_samples l1 i
        ++ .failure e :: collect_results split num_samples l2 (i + l1.length + 1) := by
  intro l1
  induction l1 with
  | nil => intro i _; simp [collect_results]
  | cons p rest ih =>
    intro i hall
    obtain ⟨a, b⟩ := p
    have hb : b = .ok () := hall (a, b) (List.mem_cons_self _ _)
    subst hb
    have hrest : ∀ q ∈ rest, q.2 = .ok () := fun q hq => hall q (List.mem_cons_of_mem _ hq)
    simp only [List.cons_append, collect_results, List.append_eq, List.append_assoc,
      List.length_cons]
    rw [ih (i + 1) hrest]
    have harith : i + 1 + rest.length + 1 = i + (rest.length + 1) + 1 := by omega
    rw [harith]

/-- A loop over all-successful results prints no failure line. -/
theorem collect_results_all_ok_no_failure (split : String) (num_samples : Nat) :
    ∀ (l : List (Nat × Except String Unit)) (i : Nat),
    (∀ p ∈ l, p.2 = .ok ()) →
    countFailureEvents (collect_results split num_samples l i) = 0 := by
  intro l
  induction l with
  | nil => intro i _; simp [collect_results, countFailureEvents]
  | cons p rest ih =>
    intro i hall
    obtain ⟨a, b⟩ := p
    have hb : b = .ok () := hall (a, b) (List.mem_cons_self _ _)
    subst hb
    have hrest : ∀ q ∈ rest, q.2 = .ok () := fun q hq => hall q (List.mem_cons_of_mem _ hq)
    unfold collect_results countFailureEvents
    rw [List.filter_append]
    have hrec := ih (i + 1) hrest
    unfold countFailureEvents at hrec
    simp only [List.length_append, hrec]
    split <;> simp [isFailureEvent]

/-- An all-successful result list counts all successes. -/
theorem successCount_all_ok {l : List (Nat × Except String Unit)}
    (h : ∀ p ∈ l, p.2 = .ok ()) : successCount l = l.length := by
  unfold successCount
  rw [List.filter_eq_self.mpr]
  intro p hp
  rw [h p hp]
  rfl

/-- The collection loop never reads the job index carried by a result. -/
theorem collect_results_index_blind (split : String) (num_samples : Nat) (f : Nat → Nat) :
    ∀ (rs : List (Nat × Except String Unit)) (i : Nat),
    collect_results split num_samples (rs.map fun p => (f p.1, p.2)) i
      = collect_results split num_samples rs i := by
  intro rs
  induction rs with
  | nil => intro i; rfl
  | cons p rest ih =>
    intro i
    obtain ⟨a, b⟩ := p
    cases b with
    | ok u => cases u; simp only [List.map_cons, collect_results, ih]
    | error e => simp only [List.map_cons, collect_results, ih]

/-- Which progress lines the collection loop prints: exactly the counts of
successfully observed results that land on the step boundary. -/
theorem progress_mem_collect_results (split : String) (num_samples : Nat) (c : Nat) :
    ∀ (rs : List (Nat × Except String Unit)) (i : Nat),
    (LogEvent.progress c num_samples split ∈ collect_results split num_samples rs i ↔
      ∃ j idx, rs[j]? = some (idx, .ok ()) ∧ c = i + j + 1
        ∧ c % progress_step num_samples = 0) := by
  intro rs
  induction rs with
  | nil =>
    intro i
    simp [collect_results]
  | cons p rest ih =>
    intro i
    obtain ⟨a, b⟩ := p
    cases b with
    | ok u =>
      cases u
      constructor
      · intro hmem
        rcases List.mem_append.mp hmem with h0 | h0
        · by_cases hstep : (i + 1) % progress_step num_samples = 0
          · rw [if_pos hstep] at h0
            simp only [List.mem_singleton, LogEvent.progress.injEq] at h0
            exact ⟨0, a, by simp, by omega, by rw [h0.1]; exact hstep⟩
          · rw [if_neg hstep] at h0
            simp at h0
        · obtain ⟨j, idx, hj, hc, hs⟩ := (ih (i + 1)).mp h0
          exact ⟨j + 1, idx, by simpa using hj, by omega, hs⟩
      · rintro ⟨j, idx, hj, hc, hs⟩
        cases j with
        | zero =>
          simp only [List.getElem?_cons_zero, Option.some.injEq, Prod.mk.injEq] at hj
          apply List.mem_append.mpr
          left
          rw [hc]
          have : i + 0 + 1 = i + 1 := by omega
          rw [this] at hc ⊢
          rw [if_pos (by rw [← hc]; exact hs)]
          simp
        | succ j' =>
          apply List.mem_append.mpr
          right
          apply (ih (i + 1)).mpr
          exact ⟨j', idx, by simpa using hj, by omega, hs⟩
    | error e =>
      constructor
      · intro hmem
        rcases List.mem_cons.mp hmem with h0 | h0
        · exact absurd h0 (by simp)
        · obtain ⟨j, idx, hj, hc, hs⟩ := (ih (i + 1)).mp h0
          exact ⟨j + 1, idx, by simpa using hj, by omega, hs⟩
      · rintro ⟨j, idx, hj, hc, hs⟩
        cases j with
        | zero => simp at hj
        | succ j' =>
          apply List.mem_cons.mpr
          right
          apply (ih (i + 1)).mpr
          exact ⟨j', idx, by simpa using hj, by omega, hs⟩

/-! Claim theorems. -/

/-- C1: for every pixel (x, y) of a synthesized image, the synthesizer
computes the Euclidean distance from (x, y) to the circle center and draws a
base value from [0, max_background_grey = 150] from the pixel's own
independent draw; when the distance is at most the radius the pixel is
clamp(base + brightness_shift, 0, 255), otherwise it is the unmodified
base value. -/
theorem C1_pixel_synthesis (width height : Nat) (r cx cy shift : Int)
    (noise : Nat → Nat → Nat) (x y : Nat)
    (hx : x < width) (hy : y < height) (hr : 0 ≤ r) :
    ((generate_static_image width height r cx cy shift noise)[y]?.bind
        fun row => row[x]?)
      = some (pixelValue (x : Int) (y : Int) cx cy r shift (baseStatic (noise x y)))
    ∧ pixelValue (x : Int) (y : Int) cx cy r shift (baseStatic (noise x y))
      = (if inCircle (x : Int) (y : Int) cx cy r
          then clampPixel (baseStatic (noise x y) + shift)
          else baseStatic (noise x y))
    ∧ (inCircle (x : Int) (y : Int) cx cy r = true ↔
        Real.sqrt (((x : ℝ) - (cx : ℝ)) ^ 2 + ((y : ℝ) - (cy : ℝ)) ^ 2) ≤ (r : ℝ))
    ∧ 0 ≤ baseStatic (noise x y) ∧ baseStatic (noise x y) ≤ max_background_grey := by
  refine ⟨?_, rfl, ?_, baseStatic_bounds (noise x y)⟩
  · simp [generate_static_image, List.getElem?_map, List.getElem?_range, hx, hy]
  · unfold inCircle
    rw [Bool.and_eq_true, decide_eq_true_eq, decide_eq_true_eq]
    rw [Real.sqrt_le_left (by exact_mod_cast hr)]
    constructor
    · rintro ⟨-, h2⟩
      exact_mod_cast h2
    · intro h2
      exact ⟨hr, by exact_mod_cast h2⟩

/-- Witness for C1 at width 4, height 4, radius 1, center (1, 2), shift 20,
constant draw 37, pixel (1, 2) (which is the circle center). -/
theorem C1_pixel_synthesis_witness :
    ((generate_static_image 4 4 1 1 2 20 (fun _ _ => 37))[2]?.bind
        fun row => row[1]?)
      = some (pixelValue ((1 : Nat) : Int) ((2 : Nat) : Int) 1 2 1 20 (baseStatic 37))
    ∧ pixelValue ((1 : Nat) : Int) ((2 : Nat) : Int) 1 2 1 20 (baseStatic 37)
      = (if inCircle ((1 : Nat) : Int) ((2 : Nat) : Int) 1 2 1
          then clampPixel (baseStatic 37 + 20)
          else baseStatic 37)
    ∧ (inCircle ((1 : Nat) : Int) ((2 : Nat) : Int) 1 2 1 = true ↔
        Real.sqrt ((((1 : Nat) : ℝ) - ((1 : Int) : ℝ)) ^ 2
          + (((2 : Nat) : ℝ) - ((2 : Int) : ℝ)) ^ 2) ≤ ((1 : Int) : ℝ))
    ∧ 0 ≤ baseStatic 37 ∧ baseStatic 37 ≤ max_background_grey :=
  C1_pixel_synthesis 4 4 1 1 2 20 (fun _ _ => 37) 1 2 (by decide) (by decide) (by decide)

/-- C3: the label encoder derives the bounding box deterministically from
the circle geometry and image dimensions (class_id 0, cx = center_x/width,
cy = center_y/height, w = 2*radius/width, h = 2*radius/height); for
width 400, height 200, radius 60 with center_y = 200/2 = 100 every sample
has w = 0.3, h = 0.6, cy = 0.5 and only cx varies with center_x. -/
theorem C3_bbox_encoding :
    (∀ (center_x : Int) (center_y circle_rad img_width img_height : Nat),
      encode_bbox center_x center_y circle_rad img_width img_height
        = ⟨0, (center_x : ℚ) / (img_width : ℚ), (center_y : ℚ) / (img_height : ℚ),
            (2 * circle_rad : ℚ) / (img_width : ℚ), (2 * circle_rad : ℚ) / (img_height : ℚ)⟩)
    ∧ ((200 : Nat) / 2 = 100)
    ∧ (∀ center_x : Int,
        (encode_bbox center_x (200 / 2) 60 400 200).class_id = 0
        ∧ (encode_bbox center_x (200 / 2) 60 400 200).cx = (center_x : ℚ) / 400
        ∧ (encode_bbox center_x (200 / 2) 60 400 200).cy = 1 / 2
        ∧ (encode_bbox center_x (200 / 2) 60 400 200).w = 3 / 10
        ∧ (encode_bbox center_x (200 / 2) 60 400 200).h = 3 / 5)
    ∧ (∀ c1 c2 : Int,
        (encode_bbox c1 (200 / 2) 60 400 200).cy = (encode_bbox c2 (200 / 2) 60 400 200).cy
        ∧ (encode_bbox c1 (200 / 2) 60 400 200).w = (encode_bbox c2 (200 / 2) 60 400 200).w
        ∧ (encode_bbox c1 (200 / 2) 60 400 200).h = (encode_bbox c2 (200 / 2) 60 400 200).h) := by
  refine ⟨fun _ _ _ _ _ => rfl, rfl, fun center_x => ⟨rfl, rfl, ?_, ?_, ?_⟩,
    fun c1 c2 => ⟨rfl, rfl, rfl⟩⟩
  · norm_num [encode_bbox]
  · norm_num [encode_bbox]
  · norm_num [encode_bbox]

/-- C6: the brightness shift drawn for each sample lies in the asymmetric
integer band [20 - 4, 20 + 3] = [16, 23] and is always strictly positive;
the draw itself is 20 plus randint(-4, 3), which never fails. -/
theorem C6_shift_band (r : Nat) :
    randint (-4) 3 r = .ok (draw_brightness_shift r - 20)
    ∧ 16 ≤ draw_brightness_shift r
    ∧ draw_brightness_shift r ≤ 23
    ∧ 0 < draw_brightness_shift r
    ∧ 16 = 20 - 4 ∧ 23 = 20 + 3 := by
  obtain ⟨h1, h2⟩ := draw_brightness_shift_bounds r
  exact ⟨randint_shift r, h1, h2, by omega, rfl, rfl⟩

/-- C9: with the base draw in [0, 150] and the shift in [16, 23], the sum
lies in [16, 173], so the clamp at 0 and 255 never alters an inside-circle
pixel; inside pixels are base + shift in [16, 173] and outside pixels are
the base in [0, 150]. -/
theorem C9_clamp_never_active (sdraw n : Nat) (x y cx cy r : Int) :
    16 ≤ draw_brightness_shift sdraw ∧ draw_brightness_shift sdraw ≤ 23
    ∧ 0 ≤ baseStatic n ∧ baseStatic n ≤ 150
    ∧ 16 ≤ baseStatic n + draw_brightness_shift sdraw
    ∧ baseStatic n + draw_brightness_shift sdraw ≤ 173
    ∧ clampPixel (baseStatic n + draw_brightness_shift sdraw)
        = baseStatic n + draw_brightness_shift sdraw
    ∧ pixelValue x y cx cy r (draw_brightness_shift sdraw) (baseStatic n)
        = (if inCircle x y cx cy r
            then baseStatic n + draw_brightness_shift sdraw
            else baseStatic n) := by
  obtain ⟨hs1, hs2⟩ := draw_brightness_shift_bounds sdraw
  obtain ⟨hb1, hb2⟩ := baseStatic_bounds n
  unfold max_background_grey at hb2
  have hclamp : clampPixel (baseStatic n + draw_brightness_shift sdraw)
      = baseStatic n + draw_brightness_shift sdraw :=
    clampPixel_eq_self (by omega) (by omega)
  refine ⟨hs1, hs2, hb1, hb2, by omega, by omega, hclamp, ?_⟩
  unfold pixelValue
  split
  · exact hclamp
  · rfl

/-- C2 counterexample: with width 4, height 4, radius 2 the circle cannot
be validly placed (radius ≥ min(width, height) / 2), yet the generation
succeeds and writes both files, so no InvalidGeometry failure occurs. -/
theorem C2_counterexample :
    min 4 4 / 2 ≤ (2 : Nat)
    ∧ (generate_single_sample 0 4 4 2 "images" "labels" ⟨0, 0, fun _ _ => 0⟩ true).1
        = .ok ()
    ∧ (generate_single_sample 0 4 4 2 "images" "labels" ⟨0, 0, fun _ _ => 0⟩ true).2.length
        = 2 :=
  ⟨by decide, rfl, rfl⟩

/-- C2 amended: the code performs no geometry validation and has no
InvalidGeometry error.  Whenever 2 * radius ≤ width the job succeeds and
writes both files, regardless of the relation between radius and height;
only when width < 2 * radius does the job fail, with the ValueError raised
by random.randint inside the job (after dispatch), and then nothing is
written by that job. -/
theorem C2_no_geometry_validation (sample_index img_width img_height circle_rad : Nat)
    (images_dir labels_dir : String) (rng : Rng) :
    (2 * circle_rad ≤ img_width →
      (generate_single_sample sample_index img_width img_height circle_rad
          images_dir labels_dir rng true).1 = .ok ()
      ∧ (generate_single_sample sample_index img_width img_height circle_rad
          images_dir labels_dir rng true).2.length = 2)
    ∧ (img_width < 2 * circle_rad →
      (generate_single_sample sample_index img_width img_height circle_rad
          images_dir labels_dir rng true).1
        = .error "ValueError: empty range for randrange"
      ∧ (generate_single_sample sample_index img_width img_height circle_rad
          images_dir labels_dir rng true).2 = []) := by
  constructor
  · intro h
    rw [generate_single_sample_ok sample_index img_width img_height circle_rad
      images_dir labels_dir rng _ (draw_center_x_ok_of_le h rng.centerDraw)]
    exact ⟨rfl, rfl⟩
  · intro h
    unfold generate_single_sample
    rw [draw_center_x_err_of_lt h rng.centerDraw]
    exact ⟨rfl, rfl⟩

/-- Witness for C2 amended: at width 4, radius 2 the job succeeds with two
files; at width 4, radius 3 it fails with the ValueError and writes
nothing. -/
theorem C2_no_geometry_validation_witness :
    ((generate_single_sample 0 4 4 2 "imgs" "lbls" ⟨0, 0, fun _ _ => 0⟩ true).1 = .ok ()
      ∧ (generate_single_sample 0 4 4 2 "imgs" "lbls" ⟨0, 0, fun _ _ => 0⟩ true).2.length = 2)
    ∧ ((generate_single_sample 0 4 4 3 "imgs" "lbls" ⟨0, 0, fun _ _ => 0⟩ true).1
        = .error "ValueError: empty range for randrange"
      ∧ (generate_single_sample 0 4 4 3 "imgs" "lbls" ⟨0, 0, fun _ _ => 0⟩ true).2 = []) :=
  ⟨(C2_no_geometry_validation 0 4 4 2 "imgs" "lbls" ⟨0, 0, fun _ _ => 0⟩).1 (by decide),
   (C2_no_geometry_validation 0 4 4 3 "imgs" "lbls" ⟨0, 0, fun _ _ => 0⟩).2 (by decide)⟩

/-- C4: whenever a job writes its label file, the file holds exactly one
line of the form class_id, cx, cy, w, h with class_id 0, the four geometry
fields formatted to exactly six decimal places, single spaces between the
five fields, and a single terminating newline. -/
theorem C4_label_format (sample_index img_width img_height circle_rad : Nat)
    (images_dir labels_dir : String) (rng : Rng) (cxI : Int)
    (hok : draw_center_x circle_rad img_width rng.centerDraw = .ok cxI) :
    ∃ img lbl,
      (generate_single_sample sample_index img_width img_height circle_rad
          images_dir labels_dir rng true).2
        = [(path_join images_dir (img_filename sample_index), .png img),
           (path_join labels_dir (label_filename sample_index), .text (String.mk lbl))]
      ∧ lbl = labelLineChars
          (encode_bbox cxI (img_height / 2) circle_rad img_width img_height)
      ∧ labelLineStructure lbl := by
  rw [generate_single_sample_ok sample_index img_width img_height circle_rad
    images_dir labels_dir rng cxI hok]
  exact ⟨_, _, rfl, rfl, labelLineChars_structure _ rfl⟩

/-- Witness for C4 at index 0, width 4, height 4, radius 1, all draws 0. -/
theorem C4_label_format_witness :
    ∃ img lbl,
      (generate_single_sample 0 4 4 1 "imgs" "lbls" ⟨0, 0, fun _ _ => 0⟩ true).2
        = [(path_join "imgs" (img_filename 0), .png img),
           (path_join "lbls" (label_filename 0), .text (String.mk lbl))]
      ∧ lbl = labelLineChars (encode_bbox 1 (4 / 2) 1 4 4)
      ∧ labelLineStructure lbl :=
  C4_label_format 0 4 4 1 "imgs" "lbls" ⟨0, 0, fun _ _ => 0⟩ 1 rfl

/-- C5: under positive dimensions with the radius within bounds, the drawn
center_x lies in [radius, width - radius] (so in [60, 340] when radius is
60 and width is 400), every pixel of the synthesized image lies in
[0, 255], and all normalized bounding-box fields lie in [0, 1]. -/
theorem C5_sample_invariants (img_width img_height circle_rad : Nat)
    (hw : 0 < img_width) (hh : 0 < img_height)
    (hrw : 2 * circle_rad ≤ img_width) (hrh : 2 * circle_rad ≤ img_height)
    (rng : Rng) (cxI : Int)
    (hok : draw_center_x circle_rad img_width rng.centerDraw = .ok cxI) :
    ((circle_rad : Int) ≤ cxI ∧ cxI ≤ (img_width : Int) - circle_rad)
    ∧ (circle_rad = 60 → img_width = 400 → 60 ≤ cxI ∧ cxI ≤ 340)
    ∧ (∀ row ∈ generate_static_image img_width img_height circle_rad cxI
          ((img_height / 2 : Nat) : Int) (draw_brightness_shift rng.shiftDraw) rng.noise,
        ∀ px ∈ row, 0 ≤ px ∧ px ≤ 255)
    ∧ (0 ≤ (encode_bbox cxI (img_height / 2) circle_rad img_width img_height).cx
      ∧ (encode_bbox cxI (img_height / 2) circle_rad img_width img_height).cx ≤ 1
      ∧ 0 ≤ (encode_bbox cxI (img_height / 2) circle_rad img_width img_height).cy
      ∧ (encode_bbox cxI (img_height / 2) circle_rad img_width img_height).cy ≤ 1
      ∧ 0 ≤ (encode_bbox cxI (img_height / 2) circle_rad img_width img_height).w
      ∧ (encode_bbox cxI (img_height / 2) circle_rad img_width img_height).w ≤ 1
      ∧ 0 ≤ (encode_bbox cxI (img_height / 2) circle_rad img_width img_height).h
      ∧ (encode_bbox cxI (img_height / 2) circle_rad img_width img_height).h ≤ 1) := by
  obtain ⟨hc1, hc2⟩ := draw_center_x_ok_bounds hok
  have hwq : (0 : ℚ) < (img_width : ℚ) := by exact_mod_cast hw
  have hhq : (0 : ℚ) < (img_height : ℚ) := by exact_mod_cast hh
  refine ⟨⟨hc1, hc2⟩, ?_, ?_, ?_, ?_, ?_, ?_, ?_, ?_, ?_, ?_⟩
  · rintro rfl rfl
    constructor <;> [exact_mod_cast hc1; omega]
  · intro row hrow px hpx
    obtain ⟨x, y, rfl⟩ := generate_static_image_mem hrow hpx
    exact pixelValue_bounds _ _ _ _ _ _ _
  · exact div_nonneg (by exact_mod_cast le_trans (by exact_mod_cast Nat.zero_le circle_rad) hc1)
      (le_of_lt hwq)
  · show (cxI : ℚ) / (img_width : ℚ) ≤ 1
    rw [div_le_one hwq]
    have : cxI ≤ (img_width : Int) := by omega
    exact_mod_cast this
  · exact div_nonneg (by positivity) (le_of_lt hhq)
  · show ((img_height / 2 : Nat) : ℚ) / (img_height : ℚ) ≤ 1
    rw [div_le_one hhq]
    exact_mod_cast Nat.div_le_self img_height 2
  · exact div_nonneg (by positivity) (le_of_lt hwq)
  · show ((2 * circle_rad : ℚ)) / (img_width : ℚ) ≤ 1
    rw [div_le_one hwq]
    exact_mod_cast hrw
  · exact div_nonneg (by positivity) (le_of_lt hhq)
  · show ((2 * circle_rad : ℚ)) / (img_height : ℚ) ≤ 1
    rw [div_le_one hhq]
    exact_mod_cast hrh

/-- Witness for C5 at width 4, height 4, radius 1, all draws 0. -/
theorem C5_sample_invariants_witness :
    (((1 : Nat) : Int) ≤ (1 : Int) ∧ (1 : Int) ≤ ((4 : Nat) : Int) - (1 : Nat))
    ∧ ((1 : Nat) = 60 → (4 : Nat) = 400 → 60 ≤ (1 : Int) ∧ (1 : Int) ≤ 340)
    ∧ (∀ row ∈ generate_static_image 4 4 1 1 (((4 : Nat) / 2 : Nat) : Int)
          (draw_brightness_shift 0) (fun _ _ => 0),
        ∀ px ∈ row, 0 ≤ px ∧ px ≤ 255)
    ∧ (0 ≤ (encode_bbox 1 (4 / 2) 1 4 4).cx
      ∧ (encode_bbox 1 (4 / 2) 1 4 4).cx ≤ 1
      ∧ 0 ≤ (encode_bbox 1 (4 / 2) 1 4 4).cy
      ∧ (encode_bbox 1 (4 / 2) 1 4 4).cy ≤ 1
      ∧ 0 ≤ (encode_bbox 1 (4 / 2) 1 4 4).w
      ∧ (encode_bbox 1 (4 / 2) 1 4 4).w ≤ 1
      ∧ 0 ≤ (encode_bbox 1 (4 / 2) 1 4 4).h
      ∧ (encode_bbox 1 (4 / 2) 1 4 4).h ≤ 1) :=
  C5_sample_invariants 4 4 1 (by decide) (by decide) (by decide) (by decide)
    ⟨0, 0, fun _ _ => 0⟩ 1 rfl

/-- C7 counterexample: the exception handler prints only the message (line
134), not the failing job's index: two runs that differ only in which job
index failed produce identical logs, so the orchestrator does not log the
failing job's index. -/
theorem C7_counterexample :
    collect_results "train" 5 [(3, .error "boom"), (0, .ok ()), (2, .ok ())] 0
      = collect_results "train" 5 [(7, .error "boom"), (0, .ok ()), (2, .ok ())] 0
    ∧ (3 : Nat) ≠ 7
    ∧ collect_results "train" 5 [(3, .error "boom"), (0, .ok ()), (2, .ok ())] 0
      = [.failure "boom", .progress 2 5 "train", .progress 3 5 "train"] :=
  ⟨rfl, by decide, rfl⟩

/-- C7 amended: on each job failure the orchestrator logs the error message
only (the job index is not part of the log line), does not cancel sibling
jobs and does not abort the split: with exactly one failing job the loop
still walks every result, the log holds exactly one failure line, the
results show N - 1 successes and 1 failure, and any job whose own center
draw succeeds still writes its two files regardless of other jobs. -/
theorem C7_failure_isolation (split : String) (num_samples : Nat)
    (l1 l2 : List (Nat × Except String Unit)) (k : Nat) (e : String)
    (h1 : ∀ p ∈ l1, p.2 = .ok ()) (h2 : ∀ p ∈ l2, p.2 = .ok ()) :
    collect_results split num_samples (l1 ++ (k, .error e) :: l2) 0
      = collect_results split num_samples l1 0
        ++ .failure e :: collect_results split num_samples l2 (l1.length + 1)
    ∧ countFailureEvents
        (collect_results split num_samples (l1 ++ (k, .error e) :: l2) 0) = 1
    ∧ successCount (l1 ++ (k, .error e) :: l2) = (l1 ++ (k, .error e) :: l2).length - 1
    ∧ failureCount (l1 ++ (k, .error e) :: l2) = 1
    ∧ (∀ (j w h rad : Nat) (idir ldir : String) (rng : Rng) (cxj : Int),
        draw_center_x rad w rng.centerDraw = .ok cxj →
        (generate_single_sample j w h rad idir ldir rng true).1 = .ok ()
        ∧ (generate_single_sample j w h rad idir ldir rng true).2.length = 2) := by
  have hz : (0 : Nat) + l1.length + 1 = l1.length + 1 := by omega
  have hsplit := collect_results_split split num_samples l2 k e l1 0 h1
  rw [hz] at hsplit
  refine ⟨hsplit, ?_, ?_, ?_, ?_⟩
  · have hA := collect_results_all_ok_no_failure split num_samples l1 0 h1
    have hB := collect_results_all_ok_no_failure split num_samples l2 (l1.length + 1) h2
    rw [hsplit]
    unfold countFailureEvents at hA hB ⊢
    rw [List.filter_append, List.filter_cons,
      show isFailureEvent (LogEvent.failure e) = true from rfl, if_pos rfl,
      List.length_append, List.length_cons]
    omega
  · have hfil : l1.filter (fun p => resultOk p.2) = l1 :=
      List.filter_eq_self.mpr fun p hp => by rw [h1 p hp]; rfl
    have hfil2 : l2.filter (fun p => resultOk p.2) = l2 :=
      List.filter_eq_self.mpr fun p hp => by rw [h2 p hp]; rfl
    unfold successCount
    rw [List.filter_append, List.filter_cons,
      show resultOk (k, Except.error e).2 = false from rfl,
      if_neg (by decide), hfil, hfil2, List.length_append, List.length_append,
      List.length_cons]
    omega
  · have hfil : l1.filter (fun p => !resultOk p.2) = [] :=
      List.filter_eq_nil_iff.mpr fun p hp => by rw [h1 p hp]; decide
    have hfil2 : l2.filter (fun p => !resultOk p.2) = [] :=
      List.filter_eq_nil_iff.mpr fun p hp => by rw [h2 p hp]; decide
    unfold failureCount
    rw [List.filter_append, List.filter_cons,
      show (!resultOk (k, Except.error e).2) = true from rfl, if_pos rfl,
      hfil, hfil2]
    rfl
  · intro j w h rad idir ldir rng cxj hok
    rw [generate_single_sample_ok j w h rad idir ldir rng cxj hok]
    exact ⟨rfl, rfl⟩

/-- Witness for C7 amended with three jobs, index 1 failing. -/
theorem C7_failure_isolation_witness :
    collect_results "train" 3 [(0, .ok ()), (1, .error "boom"), (2, .ok ())] 0
      = collect_results "train" 3 [(0, .ok ())] 0
        ++ .failure "boom" :: collect_results "train" 3 [(2, .ok ())] 2
    ∧ countFailureEvents
        (collect_results "train" 3 [(0, .ok ()), (1, .error "boom"), (2, .ok ())] 0) = 1
    ∧ successCount [(0, .ok ()), (1, .error "boom"), (2, .ok ())] = 2
    ∧ failureCount [(0, .ok ()), (1, .error "boom"), (2, .ok ())] = 1
    ∧ (∀ (j w h rad : Nat) (idir ldir : String) (rng : Rng) (cxj : Int),
        draw_center_x rad w rng.centerDraw = .ok cxj →
        (generate_single_sample j w h rad idir ldir rng true).1 = .ok ()
        ∧ (generate_single_sample j w h rad idir ldir rng true).2.length = 2) :=
  C7_failure_isolation "train" 3 [(0, .ok ())] [(2, .ok ())] 1 "boom"
    (by intro p hp; rw [List.mem_singleton] at hp; subst hp; rfl)
    (by intro p hp; rw [List.mem_singleton] at hp; subst hp; rfl)

/-- C8 counterexample: with 20 samples the 10 percent boundary is a count
of 2; when the result observed at count 2 is a failure, no progress report
is emitted at that boundary (the check sits inside the try block after
future.result()), even though the boundary at count 4 is reported. -/
theorem C8_counterexample :
    2 % progress_step 20 = 0
    ∧ ([(0, .ok ()), (1, .error "boom"), (2, .ok ()), (3, .ok ()), (4, .ok ()),
        (5, .ok ()), (6, .ok ()), (7, .ok ()), (8, .ok ()), (9, .ok ()),
        (10, .ok ()), (11, .ok ()), (12, .ok ()), (13, .ok ()), (14, .ok ()),
        (15, .ok ()), (16, .ok ()), (17, .ok ()), (18, .ok ()), (19, .ok ())] :
          List (Nat × Except String Unit)).length = 20
    ∧ LogEvent.progress 2 20 "train" ∉ collect_results "train" 20
        [(0, .ok ()), (1, .error "boom"), (2, .ok ()), (3, .ok ()), (4, .ok ()),
         (5, .ok ()), (6, .ok ()), (7, .ok ()), (8, .ok ()), (9, .ok ()),
         (10, .ok ()), (11, .ok ()), (12, .ok ()), (13, .ok ()), (14, .ok ()),
         (15, .ok ()), (16, .ok ()), (17, .ok ()), (18, .ok ()), (19, .ok ())] 0
    ∧ LogEvent.progress 4 20 "train" ∈ collect_results "train" 20
        [(0, .ok ()), (1, .error "boom"), (2, .ok ()), (3, .ok ()), (4, .ok ()),
         (5, .ok ()), (6, .ok ()), (7, .ok ()), (8, .ok ()), (9, .ok ()),
         (10, .ok ()), (11, .ok ()), (12, .ok ()), (13, .ok ()), (14, .ok ()),
         (15, .ok ()), (16, .ok ()), (17, .ok ()), (18, .ok ()), (19, .ok ())] 0 := by
  refine ⟨by decide, by decide, by decide, by decide⟩

/-- C8 amended: the loop counts completion by the number of results
observed, ignoring job indices entirely; a progress report appears at a
step boundary exactly when the result observed at that count is a success,
so a failure at a boundary count suppresses that boundary's report. -/
theorem C8_progress_reports (split : String) (num_samples : Nat)
    (rs : List (Nat × Except String Unit)) (j idx : Nat) :
    (∀ f : Nat → Nat,
      collect_results split num_samples (rs.map fun p => (f p.1, p.2)) 0
        = collect_results split num_samples rs 0)
    ∧ (rs[j]? = some (idx, .ok ()) → (j + 1) % progress_step num_samples = 0 →
        LogEvent.progress (j + 1) num_samples split
          ∈ collect_results split num_samples rs 0)
    ∧ (∀ e : String, rs[j]? = some (idx, .error e) →
        LogEvent.progress (j + 1) num_samples split
          ∉ collect_results split num_samples rs 0) := by
  refine ⟨fun f => collect_results_index_blind split num_samples f rs 0, ?_, ?_⟩
  · intro hj hstep
    exact (progress_mem_collect_results split num_samples (j + 1) rs 0).mpr
      ⟨j, idx, hj, by omega, hstep⟩
  · intro e hj hmem
    obtain ⟨j', idx', hj', hc, -⟩ :=
      (progress_mem_collect_results split num_samples (j + 1) rs 0).mp hmem
    have hjj : j' = j := by omega
    subst hjj
    rw [hj] at hj'
    simp at hj'

/-- Witness for C8 amended: with 20 samples (step 2) and a failure at the
fourth observed result, the success at count 2 is reported and the failure
at count 4 suppresses that report. -/
theorem C8_progress_reports_witness :
    LogEvent.progress 2 20 "train" ∈ collect_results "train" 20
      [(0, .ok ()), (1, .ok ()), (2, .ok ()), (3, .error "x")] 0
    ∧ LogEvent.progress 4 20 "train" ∉ collect_results "train" 20
      [(0, .ok ()), (1, .ok ()), (2, .ok ()), (3, .error "x")] 0 :=
  ⟨(C8_progress_reports "train" 20
      [(0, .ok ()), (1, .ok ()), (2, .ok ()), (3, .error "x")] 1 1).2.1 rfl (by decide),
   (C8_progress_reports "train" 20
      [(0, .ok ()), (1, .ok ()), (2, .ok ()), (3, .error "x")] 3 3).2.2 "x" rfl⟩

/-- C10: a job saves the image file before it writes the label file, so
when the label write fails the job returns a failure but the image file for
that index is already persisted: the two writes are not atomic. -/
theorem C10_image_persists_on_label_failure
    (sample_index img_width img_height circle_rad : Nat)
    (images_dir labels_dir : String) (rng : Rng) (cxI : Int)
    (hok : draw_center_x circle_rad img_width rng.centerDraw = .ok cxI) :
    (∃ img lbl,
      (generate_single_sample sample_index img_width img_height circle_rad
          images_dir labels_dir rng true).2
        = [(path_join images_dir (img_filename sample_index), .png img),
           (path_join labels_dir (label_filename sample_index), .text lbl)])
    ∧ (generate_single_sample sample_index img_width img_height circle_rad
        images_dir labels_dir rng false).1 = .error "OSError: label write failed"
    ∧ (∃ img,
        (generate_single_sample sample_index img_width img_height circle_rad
            images_dir labels_dir rng false).2
          = [(path_join images_dir (img_filename sample_index), .png img)]) := by
  rw [generate_single_sample_ok sample_index img_width img_height circle_rad
    images_dir labels_dir rng cxI hok,
    generate_single_sample_label_fail sample_index img_width img_height circle_rad
    images_dir labels_dir rng cxI hok]
  exact ⟨⟨_, _, rfl⟩, rfl, ⟨_, rfl⟩⟩

/-- Witness for C10 at index 0, width 4, height 4, radius 1, all draws 0. -/
theorem C10_image_persists_on_label_failure_witness :
    (∃ img lbl,
      (generate_single_sample 0 4 4 1 "imgs" "lbls" ⟨0, 0, fun _ _ => 0⟩ true).2
        = [(path_join "imgs" (img_filename 0), .png img),
           (path_join "lbls" (label_filename 0), .text lbl)])
    ∧ (generate_single_sample 0 4 4 1 "imgs" "lbls" ⟨0, 0, fun _ _ => 0⟩ false).1
        = .error "OSError: label write failed"
    ∧ (∃ img,
        (generate_single_sample 0 4 4 1 "imgs" "lbls" ⟨0, 0, fun _ _ => 0⟩ false).2
          = [(path_join "imgs" (img_filename 0), .png img)]) :=
  C10_image_persists_on_label_failure 0 4 4 1 "imgs" "lbls" ⟨0, 0, fun _ _ => 0⟩ 1 rfl

end BraveCaptcha
